import Mathlib

/-!
Verification development for the YAML-to-SQLAlchemy model-code generator of
this repository (`generate_models_code` in `main.py` and, duplicated
near-verbatim, in `update.py`).

The generator is embedded shallowly: Python strings are Lean `String`s
(operations are modelled on `String.data`, i.e. lists of Unicode code points,
which matches CPython semantics for the ASCII range the schema language
uses); YAML trees are an inductive of scalars and ordered mappings (parsed
`dict`s preserve document order and have unique keys); Python exceptions are
a record of exception-class name and message, and fallible code returns
`Except`.
-/

namespace OrmStudy

/-! ## Character-list string primitives

Core `String` comparison and search go through UTF-8 byte iterators, which do
not reduce in the kernel; we model the corresponding Python operations
directly on the character list, with Python's semantics (code-point
lexicographic comparison, single-separator split, etc.). -/

/-- Code-point lexicographic strict comparison of character lists: the order
Python uses for `str < str`. -/
def charsLt : List Char → List Char → Bool
  | [], [] => false
  | [], _ :: _ => true
  | _ :: _, [] => false
  | a :: as, b :: bs =>
    if a.toNat < b.toNat then true
    else if b.toNat < a.toNat then false
    else charsLt as bs

/-- Python's `s1 <= s2` on strings (code-point lexicographic). -/
def pyLe (a b : String) : Prop := charsLt b.data a.data = false

instance : DecidableRel pyLe := fun _ _ => instDecidableEqBool _ _

/-- `listLeads nd l` holds when `nd` is an initial run of `l`
(Python `startswith` on the underlying lists). -/
def listLeads : List Char → List Char → Bool
  | [], _ => true
  | _ :: _, [] => false
  | a :: as, b :: bs => a == b && listLeads as bs

/-- Python `s.startswith(nd)`. -/
def strLeads (nd s : String) : Bool := listLeads nd.data s.data

/-- `nd` occurs as a contiguous run somewhere in `hay` (Python `nd in hay`). -/
def listHasRun (nd : List Char) : List Char → Bool
  | [] => nd.isEmpty
  | b :: bs => listLeads nd (b :: bs) || listHasRun nd bs

/-- Python `nd in s` (substring containment). -/
def strHasRun (nd s : String) : Bool := listHasRun nd.data s.data

/-- Split a character list at every occurrence of a single separator
character, Python `str.split(sep)` semantics (empty runs kept, `""` splits to
`[""]`). -/
def splitCharAux (sep : Char) : List Char → List Char → List (List Char)
  | [], cur => [cur.reverse]
  | c :: cs, cur =>
    if c == sep then cur.reverse :: splitCharAux sep cs []
    else splitCharAux sep cs (c :: cur)

/-- Python `s.split(sep)` for a one-character separator. -/
def pySplit (sep : Char) (s : String) : List String :=
  (splitCharAux sep s.data []).map String.mk

/-- Python's default string-strip whitespace set. -/
def isPySpace (c : Char) : Bool :=
  c == ' ' || c == '\t' || c == '\n' || c == '\r' || c == '\x0b' || c == '\x0c'

/-- Python `s.strip()` (ASCII whitespace; the schemas at hand contain no
exotic Unicode whitespace). -/
def pyStrip (s : String) : String :=
  String.mk (((s.data.dropWhile isPySpace).reverse.dropWhile isPySpace).reverse)

/-- Python `s.lower()` (ASCII range). -/
def pyLower (s : String) : String := String.mk (s.data.map Char.toLower)

/-- Python `s.capitalize()`: first character uppercased, every remaining
character lowercased (ASCII range). -/
def pyCapitalize (s : String) : String :=
  match s.data with
  | [] => ""
  | c :: cs => String.mk (c.toUpper :: cs.map Char.toLower)

/-- Python `sep.join(parts)`. -/
def pyJoin (sep : String) : List String → String
  | [] => ""
  | [a] => a
  | a :: rest => a ++ sep ++ pyJoin sep rest

/-! ## Python scalar values and their textual renderings -/

/-- The YAML scalar values the generator can receive (Python `str`, `int`,
`bool`, `None`). Floats are outside the modelled range; no claim needs
them. -/
inductive PyVal where
  | str (s : String)
  | int (n : Int)
  | bool (b : Bool)
  | null
deriving DecidableEq

/-- Python `str(v)` for scalars. -/
def pyStr : PyVal → String
  | .str s => s
  | .int n => toString n
  | .bool b => if b then "True" else "False"
  | .null => "None"

/-- Hexadecimal digit, lowercase, as CPython's `repr` prints `\xNN`
escapes. -/
def hexDigit (n : Nat) : Char :=
  if n < 10 then Char.ofNat (48 + n) else Char.ofNat (87 + n)

/-- CPython `repr` escape of one character given the chosen quote
character. -/
def reprEscChar (q c : Char) : List Char :=
  if c == '\\' then ['\\', '\\']
  else if c == q then ['\\', q]
  else if c == '\n' then ['\\', 'n']
  else if c == '\r' then ['\\', 'r']
  else if c == '\t' then ['\\', 't']
  else if c.toNat < 32 || c.toNat == 127 then
    ['\\', 'x', hexDigit (c.toNat / 16 % 16), hexDigit (c.toNat % 16)]
  else [c]

/-- CPython `repr` of a `str`: single quotes, switching to double quotes when
the string contains a single quote but no double quote; backslashes, quotes
and ASCII control characters escaped. (Printable characters are kept; the
schemas at hand use none of the non-ASCII non-printable code points where
CPython would escape further.) -/
def pyReprStr (s : String) : String :=
  let q : Char :=
    if s.data.contains '\'' && !(s.data.contains '"') then '"' else '\''
  String.mk (q :: (s.data.map (reprEscChar q)).flatten ++ [q])

/-- Python `repr(v)` for scalars (`repr` equals `str` outside `str`
itself). -/
def pyRepr : PyVal → String
  | .str s => pyReprStr s
  | v => pyStr v

/-! ## YAML trees

`yaml.safe_load` produces nested `dict`s and scalars; parsed `dict`s keep
document order and have unique keys, so a mapping is an association list.
(YAML sequences never reach the code paths the claims are about: any place
the generator looks, a list fails the `isinstance(..., dict)` shape checks
exactly as a scalar does, so scalars cover them.) -/

inductive Yaml where
  | scalar (v : PyVal)
  | map (kvs : List (String × Yaml))

/-- Python `d.get(k)` / `d[k]` on a parsed mapping; `none` when the key is
absent or the node is not a mapping. -/
def Yaml.get? (y : Yaml) (k : String) : Option Yaml :=
  match y with
  | .map kvs => kvs.lookup k
  | .scalar _ => none

/-- Python truthiness of a loaded YAML node. -/
def Yaml.truthy : Yaml → Bool
  | .scalar (.str s) => !(s == "")
  | .scalar (.int n) => !(n == 0)
  | .scalar (.bool b) => b
  | .scalar .null => false
  | .map kvs => !kvs.isEmpty

/-- Python truthiness of `d.get(k)` (absent key → `None` → falsy). -/
def truthyOpt : Option Yaml → Bool
  | Option.none => false
  | some v => v.truthy

/-- Python `d.get(k) is False`: the value is present and is exactly the
`bool` `False` (``0`` or `''` are falsy but are not `False`). -/
def isFalseOpt : Option Yaml → Bool
  | some (.scalar (.bool b)) => !b
  | _ => false

/-- Python class name of a loaded node, as it appears in
`AttributeError` messages. -/
def pyTypeName : Yaml → String
  | .scalar (.str _) => "str"
  | .scalar (.int _) => "int"
  | .scalar (.bool _) => "bool"
  | .scalar .null => "NoneType"
  | .map _ => "dict"

mutual

/-- Python `repr` of a loaded node (`dict`s render as `{k: v, ...}` with
`repr` of keys and values). -/
def pyReprY : Yaml → String
  | .scalar v => pyRepr v
  | .map kvs => "\x7b" ++ pyReprKVs kvs ++ "\x7d"

/-- Comma-separated `repr` rendering of a `dict`'s entries. -/
def pyReprKVs : List (String × Yaml) → String
  | [] => ""
  | [(k, v)] => pyReprStr k ++ ": " ++ pyReprY v
  | (k, v) :: rest => pyReprStr k ++ ": " ++ pyReprY v ++ ", " ++ pyReprKVs rest

end

/-- Python `str` of a loaded node (`str` falls back to `repr` for
`dict`s). -/
def pyStrY : Yaml → String
  | .scalar v => pyStr v
  | y => pyReprY y

/-! ## The generator (`generate_models_code`, `main.py` lines 42-168)

Errors are a Python exception class name plus message; every error the
generator itself raises is a `ValueError`, and the one crash reachable
through a shape the validator does not guard (a truthy non-string
`description`) is an `AttributeError`. -/

/-- A raised Python exception: class name and message. -/
structure PyErr where
  exnType : String
  msg : String
deriving DecidableEq

/-- `SQLA_TYPE_MAP` (`main.py` lines 9-16): the six-entry mapping from YAML
type tags to SQLAlchemy type object names. -/
def SQLA_TYPE_MAP : List (String × String) :=
  [("Integer", "Integer"), ("String", "String"), ("DateTime", "DateTime"),
   ("Boolean", "Boolean"), ("Float", "Float"), ("Text", "Text")]

/-- `_snake_to_pascal` (`main.py` lines 24-29): split on underscores,
`str.capitalize()` each word, concatenate. -/
def snake_to_pascal (s : String) : String :=
  String.join ((pySplit '_' s).map pyCapitalize)

/-- `_normalize_yaml_value` (`main.py` lines 31-38): `repr` for strings,
`str` for everything else. -/
def normalize_yaml_value (v : Yaml) : String :=
  match v with
  | .scalar (.str s) => pyReprStr s
  | y => pyStrY y

/-- The default-value argument of one column (`main.py` lines 125-132): the
rendered argument strings (empty when no `default` key) and whether the
`func` import flag gets set. -/
def default_part (col : Yaml) : List String × Bool :=
  match col.get? "default" with
  | Option.none => ([], false)
  | some dv =>
    match dv with
    | .scalar (.str s) =>
      if strLeads "func." s then (["server_default=" ++ s], true)
      else (["default=" ++ normalize_yaml_value dv], false)
    | _ => (["default=" ++ normalize_yaml_value dv], false)

/-- The argument list of one column declaration (`main.py` lines 114-138),
in the source's append order, paired with the `func`-import flag
contribution. -/
def column_args (col : Yaml) : List String × Bool :=
  let dp := default_part col
  ((if truthyOpt (col.get? "primary_key") then ["primary_key=True"] else [])
    ++ (if truthyOpt (col.get? "autoincrement") then ["autoincrement=True"] else [])
    ++ (if isFalseOpt (col.get? "nullable") then ["nullable=False"] else [])
    ++ (if truthyOpt (col.get? "unique") then ["unique=True"] else [])
    ++ dp.1
    ++ (if truthyOpt (col.get? "index") then ["index=True"] else [])
    ++ (match col.get? "comment" with
        | some cv => ["comment=" ++ normalize_yaml_value cv]
        | Option.none => []),
   dp.2)

/-- The rendered type expression (`main.py` lines 109-112): the bare token,
parameterized with the length when the tag is `String` and `length` is
present. -/
def column_type_str (tok yamlType : String) (col : Yaml) : String :=
  match col.get? "length" with
  | some lv =>
    if yamlType == "String" then "String(length=" ++ pyStrY lv ++ ")" else tok
  | Option.none => tok

/-- The declaration line (`main.py` lines 140-144): joins the arguments with
`", "` and branches on the truthiness of the joined string. -/
def column_line (colName cts : String) (args : List String) : String :=
  let args_str := pyJoin ", " args
  if args_str == "" then "    " ++ colName ++ " = Column(" ++ cts ++ ")"
  else "    " ++ colName ++ " = Column(" ++ cts ++ ", " ++ args_str ++ ")"

/-- Result of processing one column: its declaration line, the base type
token added to the used-type set, and its `func`-import contribution. -/
structure ColOut where
  line : String
  typeToken : String
  needsFunc : Bool

/-- Processing of one column (`main.py` lines 100-144): shape and type-tag
validation, then line construction. The membership test
`yaml_type not in SQLA_TYPE_MAP` (line 105) hashes the `type` value, so a
mapping-valued `type` raises `TypeError: unhashable type: 'dict'` there;
every hashable non-tag value (non-`String` scalars, strings outside the
table) takes the `ValueError` branch with the value rendered via `str`. -/
def process_column (tableKey colName : String) (col : Yaml) : Except PyErr ColOut :=
  match col with
  | .map _ =>
    match col.get? "type" with
    | some tv =>
      match tv with
      | .scalar (.str s) =>
        match SQLA_TYPE_MAP.lookup s with
        | some tok =>
          let ap := column_args col
          .ok ⟨column_line colName (column_type_str tok s col) ap.1, tok, ap.2⟩
        | Option.none =>
          .error ⟨"ValueError",
            "サポートされていないSQLAlchemyの型 '" ++ pyStrY tv
              ++ "' がカラム '" ++ colName ++ "' に指定されています。"⟩
      | .map _ => .error ⟨"TypeError", "unhashable type: 'dict'"⟩
      | .scalar _ =>
        .error ⟨"ValueError",
          "サポートされていないSQLAlchemyの型 '" ++ pyStrY tv
            ++ "' がカラム '" ++ colName ++ "' に指定されています。"⟩
    | Option.none =>
      .error ⟨"ValueError",
        "テーブル '" ++ tableKey ++ "' のカラム '" ++ colName
          ++ "' は不正な形式か、'type' がありません。"⟩
  | .scalar _ =>
    .error ⟨"ValueError",
      "テーブル '" ++ tableKey ++ "' のカラム '" ++ colName
        ++ "' は不正な形式か、'type' がありません。"⟩

/-- Process a table's columns in document order, collecting the per-column
results (first error wins, as in the source loop). -/
def col_results (tableKey : String) : List (String × Yaml) → Except PyErr (List ColOut)
  | [] => .ok []
  | (n, c) :: rest =>
    match process_column tableKey n c with
    | .ok o =>
      match col_results tableKey rest with
      | .ok os => .ok (o :: os)
      | .error e => .error e
    | .error e => .error e

/-- The docstring block of one table (`main.py` lines 87-91): emitted when
the `description` value is truthy; stripped and re-split, each line
re-stripped. A truthy non-string `description` hits `str.strip` on a
non-string and raises `AttributeError` in Python. -/
def docstring_lines (t : Yaml) : Except PyErr (List String) :=
  let dv := (t.get? "description").getD (.scalar (.str ""))
  if dv.truthy then
    match dv with
    | .scalar (.str d) =>
      .ok (["    \"\"\""]
        ++ (pySplit '\n' (pyStrip d)).map (fun ln => "    " ++ pyStrip ln)
        ++ ["    \"\"\""])
    | _ =>
      .error ⟨"AttributeError",
        "'" ++ pyTypeName dv ++ "' object has no attribute 'strip'"⟩
  else .ok []

/-- Python `set.add` on a set modelled as its insertion-order element
list. -/
def setAdd (l : List String) (x : String) : List String :=
  if x ∈ l then l else l ++ [x]

/-- Fold the columns' type tokens into the used-type set. -/
def addTokens (u : List String) (os : List ColOut) : List String :=
  os.foldl (fun acc o => setAdd acc o.typeToken) u

/-- The state threaded through the per-table loop: the used-type set (in
insertion order), the `func`-import flag, and the emitted model lines. -/
structure GenAcc where
  usedTypes : List String
  needsFunc : Bool
  lines : List String

/-- `class_name` resolution (`main.py` line 81): the explicit value, else the
snake-to-pascal conversion of the table key. -/
def resolved_class_name (tableKey : String) (t : Yaml) : String :=
  match t.get? "class_name" with
  | some v => pyStrY v
  | Option.none => snake_to_pascal tableKey

/-- `table_name` resolution (`main.py` line 82): the explicit value, else the
lowercased table key. -/
def resolved_table_name (tableKey : String) (t : Yaml) : String :=
  match t.get? "table_name" with
  | some v => pyStrY v
  | Option.none => pyLower tableKey

/-- Processing of one table entry (`main.py` lines 77-145): shape check,
name resolution, header/docstring/table-name lines, then the column
loop and the trailing blank separator line. -/
def process_table (tableKey : String) (t : Yaml) (acc : GenAcc) : Except PyErr GenAcc :=
  match t with
  | .map _ =>
    let class_name := resolved_class_name tableKey t
    let db_table_name := resolved_table_name tableKey t
    match docstring_lines t with
    | .ok ds =>
      match t.get? "columns" with
      | some (.map cols) =>
        match col_results tableKey cols with
        | .ok os =>
          .ok { usedTypes := addTokens acc.usedTypes os,
                needsFunc := acc.needsFunc || os.any (·.needsFunc),
                lines := acc.lines
                  ++ ["class " ++ class_name ++ "(Base):"] ++ ds
                  ++ ["    __tablename__ = '" ++ db_table_name ++ "'", ""]
                  ++ os.map (·.line) ++ [""] }
        | .error e => .error e
      | _ =>
        .error ⟨"ValueError",
          "テーブル '" ++ tableKey
            ++ "' には 'columns' セクションがないか、不正な形式です。"⟩
    | .error e => .error e
  | .scalar _ =>
    .error ⟨"ValueError",
      "テーブル '" ++ tableKey ++ "' の定義が不正な形式です。"⟩

/-- The per-table loop over the `tables` mapping, in document order. -/
def process_tables : List (String × Yaml) → GenAcc → Except PyErr GenAcc
  | [], acc => .ok acc
  | (k, t) :: rest, acc =>
    match process_table k t acc with
    | .ok acc2 => process_tables rest acc2
    | .error e => .error e

/-- Root-shape validation plus the table loop (`main.py` lines 63-145). -/
def collect (doc : Yaml) : Except PyErr GenAcc :=
  match doc with
  | .map _ =>
    match doc.get? "tables" with
    | some (.map ts) => process_tables ts ⟨[], false, []⟩
    | _ =>
      .error ⟨"ValueError",
        "無効なYAMLスキーマ: 'tables' セクションが見つからないか、不正な形式です。"⟩
  | .scalar _ =>
    .error ⟨"ValueError",
      "無効なYAMLスキーマ: 'tables' セクションが見つからないか、不正な形式です。"⟩

/-- Python `sorted` on strings: any sort producing an ordered permutation;
`sorted(l)` and this agree on every list because code-point order is
antisymmetric. -/
def sortStr (l : List String) : List String := List.insertionSort pyLe l

/-- `general_sqlalchemy_imports` (`main.py` lines 148-152): start from
`["Column"]` and append each member of the used-type set not already
present, in the set's iteration order `iter`. -/
def build_general (iter : List String) : List String :=
  iter.foldl (fun g t => if t ∈ g then g else g ++ [t]) ["Column"]

/-- `final_imports` (`main.py` lines 154-161), parameterized by the
used-type set's iteration order: the combined `from sqlalchemy import ...`
line, the conditional `func` import, the `declarative_base` import, then
`sorted(list(set(...)))`. -/
def imports_of (acc : GenAcc) (iter : List String) : List String :=
  let final0 := ["from sqlalchemy import " ++ pyJoin ", " (sortStr (build_general iter))]
    ++ (if acc.needsFunc then ["from sqlalchemy.sql import func"] else [])
    ++ ["from sqlalchemy.ext.declarative import declarative_base"]
  sortStr final0.dedup

/-- `full_code` assembly (`main.py` lines 163-168). -/
def assemble (acc : GenAcc) (iter : List String) : String :=
  pyJoin "\n" (imports_of acc iter) ++ "\n\n" ++ "Base = declarative_base()\n\n"
    ++ pyJoin "\n" acc.lines

/-- `generate_models_code` on an already-loaded document (`update.py`'s
variant modulo the text-level loading; the canonical iteration order of the
used-type set is its insertion order). -/
def generate_models_code (doc : Yaml) : Except PyErr String :=
  match collect doc with
  | .ok acc => .ok (assemble acc acc.usedTypes)
  | .error e => .error e

/-- The outcome of `open` + `yaml.safe_load` on the source path, which is
external I/O: the file may be missing, the text may fail to parse (with the
parser's diagnostic), or a document tree is produced. -/
inductive LoadResult where
  | fileMissing
  | parseFailed (diag : String)
  | loaded (doc : Yaml)

/-- `generate_models_code(yaml_path)` of `main.py` (lines 55-61 plus the
rest): the file-based entry point, its loading outcome made explicit. -/
def generate_models_code_from_file (yamlPath : String) (r : LoadResult) :
    Except PyErr String :=
  match r with
  | .fileMissing =>
    .error ⟨"ValueError",
      "エラー: YAMLスキーマファイル '" ++ yamlPath ++ "' が見つかりません。"⟩
  | .parseFailed diag =>
    .error ⟨"ValueError",
      "エラー: YAMLスキーマファイル '" ++ yamlPath
        ++ "' の解析に失敗しました: " ++ diag⟩
  | .loaded doc => generate_models_code doc

/-! ## Schema-level observations

Boolean checkers over the raw document, used to connect the accumulated
generator state to the columns of the schema (for the claims quantifying
over schemas). -/

/-- The column's `default` is a string carrying the reserved `func.`
prefix. -/
def colHasFuncDefault (col : Yaml) : Bool :=
  match col.get? "default" with
  | some (.scalar (.str s)) => strLeads "func." s
  | _ => false

/-- The columns mapping of a table entry (empty for shapes the validator
rejects anyway). -/
def tableCols (t : Yaml) : List (String × Yaml) :=
  match t.get? "columns" with
  | some (.map cs) => cs
  | _ => []

/-- The tables mapping of a document (empty for shapes the validator rejects
anyway). -/
def docTables (doc : Yaml) : List (String × Yaml) :=
  match doc.get? "tables" with
  | some (.map ts) => ts
  | _ => []

/-- Some column of the document carries a `func.`-prefixed string default. -/
def docHasFuncDefault (doc : Yaml) : Bool :=
  (docTables doc).any fun kt => (tableCols kt.2).any fun kc => colHasFuncDefault kc.2

/-- The column's `type` tag equals `tag`. -/
def colTagIs (tag : String) (col : Yaml) : Bool :=
  match col.get? "type" with
  | some (.scalar (.str s)) => s == tag
  | _ => false

/-- The column's `type` tag lies in `allowed`. -/
def colTagIn (allowed : List String) (col : Yaml) : Bool :=
  match col.get? "type" with
  | some (.scalar (.str s)) => allowed.contains s
  | _ => false

/-- Every column of the document has its `type` tag in `allowed`. -/
def docAllTagsIn (allowed : List String) (doc : Yaml) : Bool :=
  (docTables doc).all fun kt => (tableCols kt.2).all fun kc => colTagIn allowed kc.2

/-- Some column of the document has `type` tag `tag`. -/
def docSomeTag (tag : String) (doc : Yaml) : Bool :=
  (docTables doc).any fun kt => (tableCols kt.2).any fun kc => colTagIs tag kc.2

/-! ## Spec-side renderings

Definitions transcribed from the claims' words (not from the source), used
to state the refinement claims C1, C3 and C6. -/

/-- C1, spec side: the column's `type` tag, when it is a string. -/
def c1_tag (col : Yaml) : Option String :=
  match col.get? "type" with
  | some (.scalar (.str s)) => some s
  | _ => none

/-- C1, spec side: "the base type token is resolved from the six-entry type
table". -/
def c1_base_token (col : Yaml) : Option String :=
  (c1_tag col).bind fun s => SQLA_TYPE_MAP.lookup s

/-- C1, spec side: "if the type tag is String and a length field is present,
the type renders as a parameterized form carrying that length (otherwise the
bare token)". -/
def c1_type_rendered (col : Yaml) : Option String :=
  (c1_base_token col).map fun tok =>
    match col.get? "length" with
    | some lv =>
      if c1_tag col == some "String" then "String(length=" ++ pyStrY lv ++ ")" else tok
    | Option.none => tok

/-- C1, spec side: the `default` contribution — "if the value is a string
matching the reserved function-prefix convention, emit it as a
server-side-default argument verbatim, otherwise as a client-side default
argument with the value rendered via the literal-normalization rule". -/
def c1_default_args (col : Yaml) : List String :=
  match col.get? "default" with
  | some (.scalar (.str s)) =>
    if strLeads "func." s then ["server_default=" ++ s]
    else ["default=" ++ normalize_yaml_value (.scalar (.str s))]
  | some dv => ["default=" ++ normalize_yaml_value dv]
  | Option.none => []

/-- C1, spec side: "the argument list is built in exactly the order
primary_key, autoincrement, nullable=False, unique, default, index, comment,
each argument included only if the corresponding field is present/true". -/
def c1_args (col : Yaml) : List String :=
  (if truthyOpt (col.get? "primary_key") then ["primary_key=True"] else [])
    ++ (if truthyOpt (col.get? "autoincrement") then ["autoincrement=True"] else [])
    ++ (if isFalseOpt (col.get? "nullable") then ["nullable=False"] else [])
    ++ (if truthyOpt (col.get? "unique") then ["unique=True"] else [])
    ++ c1_default_args col
    ++ (if truthyOpt (col.get? "index") then ["index=True"] else [])
    ++ (match col.get? "comment" with
        | some cv => ["comment=" ++ normalize_yaml_value cv]
        | Option.none => [])

/-- C1, spec side: "the line renders as 'name = Column(<type>, <args>)' when
the list is non-empty and 'name = Column(<type>)' when it is empty". -/
def c1_line (colName : String) (col : Yaml) : Option String :=
  (c1_type_rendered col).map fun ty =>
    if c1_args col = [] then colName ++ " = Column(" ++ ty ++ ")"
    else colName ++ " = Column(" ++ ty ++ ", " ++ pyJoin ", " (c1_args col) ++ ")"

/-- C3, claim side, as stated: one import line naming the base declaration
helper plus every distinct used type token, "the tokens sorted alphabetically
and the base helper name first". -/
def c3_claim_type_line (used : List String) : String :=
  "from sqlalchemy import " ++ pyJoin ", " ("Column" :: sortStr used.dedup)

/-- C6, claim side, as stated: capitalize only the first letter of each
underscore-separated segment, leaving the rest of the segment unchanged. -/
def c6_claim_capitalize (s : String) : String :=
  match s.data with
  | [] => ""
  | c :: cs => String.mk (c.toUpper :: cs)

/-- C6, claim side, as stated: the class name derived from the table key by
first-letter capitalization of each segment. -/
def c6_claim_class_name (key : String) : String :=
  String.join ((pySplit '_' key).map c6_claim_capitalize)

/-! ## Concrete documents for witnesses and counterexamples -/

/-- A one-table, one-Boolean-column schema. -/
def docBool : Yaml :=
  .map [("tables", .map [("t", .map [("columns", .map [
    ("b", .map [("type", .scalar (.str "Boolean"))])])])])]

/-- A schema whose only column declares the unsupported type `JSON`, inside
table `zzz_tbl`. -/
def docJson : Yaml :=
  .map [("tables", .map [("zzz_tbl", .map [("columns", .map [
    ("c", .map [("type", .scalar (.str "JSON"))])])])])]

/-- A table entry with a present but empty `columns` mapping. -/
def docEmptyCols : Yaml :=
  .map [("tables", .map [("t", .map [("columns", .map [])])])]

/-- A table key with interior uppercase letters and no explicit
`class_name`/`table_name`. -/
def docMixedKey : Yaml :=
  .map [("tables", .map [("user_pROFILE", .map [("columns", .map [])])])]

/-- A two-column Integer/String schema with a plain literal default and no
`func.` defaults. -/
def docIntStr : Yaml :=
  .map [("tables", .map [("acct", .map [("columns", .map [
    ("id", .map [("type", .scalar (.str "Integer")),
                 ("primary_key", .scalar (.bool true))]),
    ("name", .map [("type", .scalar (.str "String")),
                   ("length", .scalar (.int 50)),
                   ("nullable", .scalar (.bool false)),
                   ("default", .scalar (.str "anon"))])])])])]

/-- A schema with a `func.now()` server-side default on its single column. -/
def docFunc : Yaml :=
  .map [("tables", .map [("ev", .map [("columns", .map [
    ("ts", .map [("type", .scalar (.str "DateTime")),
                 ("default", .scalar (.str "func.now()"))])])])])]

/-- First line of a successful generation result (empty on failure). -/
def okFirstLine (r : Except PyErr String) : String :=
  match r with
  | .ok s => (pySplit '\n' s).headD ""
  | .error _ => ""

/-- The `type` value is a string tag the six-entry table knows. -/
def typeTagValid (tv : Yaml) : Bool :=
  match tv with
  | .scalar (.str s) => (SQLA_TYPE_MAP.lookup s).isSome
  | _ => false

/-- The root-shape check of the generator (`main.py` line 64): the document
is a mapping whose `tables` value is a mapping. -/
def rootTables? (doc : Yaml) : Option (List (String × Yaml)) :=
  match doc with
  | .map _ =>
    match doc.get? "tables" with
    | some (.map ts) => some ts
    | _ => Option.none
  | .scalar _ => Option.none

/-- C6, amended: first letter of each underscore-separated segment uppercased
and the remaining letters of the segment lowercased, segments concatenated
with no separator. -/
def c6_amended_class_name (key : String) : String :=
  String.join ((pySplit '_' key).map fun seg =>
    match seg.data with
    | [] => ""
    | c :: cs => String.mk (c.toUpper :: cs.map Char.toLower))

/-- A column with a `func.now()` default. -/
def colFuncEx : Yaml :=
  .map [("type", .scalar (.str "DateTime")), ("default", .scalar (.str "func.now()"))]

/-- A column with a plain literal default `0`. -/
def colZeroEx : Yaml :=
  .map [("type", .scalar (.str "Integer")), ("default", .scalar (.int 0))]

/-- A column with `nullable: false`. -/
def colNotNullEx : Yaml :=
  .map [("type", .scalar (.str "Integer")), ("nullable", .scalar (.bool false))]

/-- A column with `nullable: true` and a comment. -/
def colNullableEx : Yaml :=
  .map [("type", .scalar (.str "Integer")), ("nullable", .scalar (.bool true)),
        ("comment", .scalar (.str "free text"))]

/-! ## Order lemmas for the code-point lexicographic comparison -/

theorem charsLt_connect : ∀ {a b : List Char},
    charsLt a b = false → charsLt b a = false → a = b
  | [], [], _, _ => rfl
  | [], _ :: _, h, _ => by simp [charsLt] at h
  | _ :: _, [], _, h => by simp [charsLt] at h
  | a :: as, b :: bs, h, h' => by
    simp only [charsLt] at h h'
    split at h
    · exact absurd h (by simp)
    · split at h
      · next hba => simp [if_pos hba] at h'
      · next h1 h2 =>
        have hab : a = b :=
          Char.eq_of_val_eq (UInt32.ext_iff.mpr (Nat.le_antisymm
            (Nat.le_of_not_lt (by simpa using h2)) (Nat.le_of_not_lt (by simpa using h1))))
        have : as = bs := charsLt_connect h (by
          rw [if_neg h2, if_neg h1] at h'; exact h')
        rw [hab, this]

theorem charsLt_trans : ∀ {a b c : List Char},
    charsLt a b = true → charsLt b c = true → charsLt a c = true
  | [], _, _ :: _, _, _ => by simp [charsLt]
  | [], _ :: _, [], _, h' => by simp [charsLt] at h'
  | [], [], [], h, _ => by simp [charsLt] at h
  | _ :: _, [], _, h, _ => by simp [charsLt] at h
  | _ :: _, _ :: _, [], _, h' => by simp [charsLt] at h'
  | a :: as, b :: bs, c :: cs, h, h' => by
    simp only [charsLt] at h h' ⊢
    by_cases hab : a.toNat < b.toNat
    · by_cases hbc : b.toNat < c.toNat
      · rw [if_pos (Nat.lt_trans hab hbc)]
      · rw [if_neg hbc] at h'
        split at h'
        · exact absurd h' (by simp)
        · next hcb =>
          have hbc' : b.toNat = c.toNat :=
            Nat.le_antisymm (Nat.le_of_not_lt hcb) (Nat.le_of_not_lt hbc)
          rw [if_pos (hbc' ▸ hab)]
    · rw [if_neg hab] at h
      split at h
      · exact absurd h (by simp)
      · next hba =>
        have hab' : a.toNat = b.toNat :=
          Nat.le_antisymm (Nat.le_of_not_lt hba) (Nat.le_of_not_lt hab)
        by_cases hbc : b.toNat < c.toNat
        · rw [if_pos (hab' ▸ hbc)]
        · rw [if_neg hbc] at h'
          split at h'
          · exact absurd h' (by simp)
          · next hcb =>
            have hbc' : b.toNat = c.toNat :=
              Nat.le_antisymm (Nat.le_of_not_lt hcb) (Nat.le_of_not_lt hbc)
            rw [hab', hbc']
            simp [charsLt_trans h h']

theorem charsLt_irrefl : ∀ l : List Char, charsLt l l = false
  | [] => rfl
  | c :: cs => by simp [charsLt, charsLt_irrefl cs]

instance : IsTotal String pyLe where
  total a b := by
    unfold pyLe
    cases hab : charsLt a.data b.data with
    | false => exact Or.inr rfl
    | true =>
      cases hba : charsLt b.data a.data with
      | false => exact Or.inl rfl
      | true => exact absurd (charsLt_trans hab hba) (by simp [charsLt_irrefl])

instance : IsTrans String pyLe where
  trans a b c hab hbc := by
    unfold pyLe at *
    cases hca : charsLt c.data a.data with
    | false => rfl
    | true =>
      by_cases h1 : charsLt a.data b.data = true
      · exact absurd (charsLt_trans hca h1) (by simp [hbc])
      · have : a.data = b.data :=
          charsLt_connect (by simpa using h1) hab
        rw [this] at hca
        simp [hca] at hbc

instance : IsAntisymm String pyLe where
  antisymm _ _ hab hba := String.ext (charsLt_connect hba hab)

/-- `sortStr` output is sorted. -/
theorem sortStr_sorted (l : List String) : List.Sorted pyLe (sortStr l) :=
  List.sorted_insertionSort pyLe l

/-- `sortStr` permutes its input. -/
theorem sortStr_perm (l : List String) : (sortStr l).Perm l :=
  List.perm_insertionSort pyLe l

/-- Any two lists with the same multiset of strings sort identically — the
reason `sorted(...)` makes Python's set iteration order unobservable. -/
theorem sortStr_eq_of_perm {l₁ l₂ : List String} (h : l₁.Perm l₂) :
    sortStr l₁ = sortStr l₂ :=
  List.eq_of_perm_of_sorted ((sortStr_perm l₁).trans (h.trans (sortStr_perm l₂).symm))
    (sortStr_sorted l₁) (sortStr_sorted l₂)

/-! ## Substring and append lemmas -/

theorem listLeads_self_append : ∀ (a b : List Char), listLeads a (a ++ b) = true
  | [], _ => rfl
  | c :: cs, b => by simp [listLeads, listLeads_self_append cs b]

theorem listHasRun_nil_left : ∀ l : List Char, listHasRun [] l = true
  | [] => rfl
  | _ :: cs => by simp [listHasRun, listLeads, listHasRun_nil_left cs]

theorem listHasRun_start : ∀ (nd suf : List Char), listHasRun nd (nd ++ suf) = true
  | [], suf => listHasRun_nil_left suf
  | c :: cs, suf => by
    simp only [List.cons_append, listHasRun, List.append_eq]
    rw [← List.cons_append, listLeads_self_append (c :: cs) suf]
    rfl

theorem listHasRun_mid : ∀ (pre nd suf : List Char),
    listHasRun nd (pre ++ nd ++ suf) = true
  | [], nd, suf => by simpa using listHasRun_start nd suf
  | p :: ps, nd, suf => by
    cases nd with
    | nil => exact listHasRun_nil_left _
    | cons c cs =>
      simp only [List.cons_append, listHasRun, List.append_eq]
      have := listHasRun_mid ps (c :: cs) suf
      simp only [List.cons_append, List.append_assoc] at this ⊢
      rw [this, Bool.or_true]

/-- A string of the shape `pre ++ nd ++ suf` contains `nd` — how "the message
names X" is discharged. -/
theorem strHasRun_mid (pre nd suf : String) : strHasRun nd (pre ++ nd ++ suf) = true := by
  unfold strHasRun
  rw [String.data_append, String.data_append]
  exact listHasRun_mid pre.data nd.data suf.data

/-- A string extending `p` on the right cannot equal a string that does not
start with `p` — used to tell the fixed-head argument strings apart. -/
theorem str_ne_of_not_leads {p q : String} (x : String)
    (h : listLeads p.data q.data = false) : p ++ x ≠ q := by
  intro he
  have hd : p.data ++ x.data = q.data := by
    rw [← String.data_append, he]
  rw [← hd, listLeads_self_append] at h
  exact absurd h (by simp)

theorem append_data_ne_nil {p : String} (x : String) (hp : p.data ≠ []) :
    (p ++ x).data ≠ [] := by
  rw [String.data_append]
  simp only [ne_eq, List.append_eq_nil]
  intro hc
  exact hp hc.1

theorem pyJoin_comma_ne_empty : ∀ {args : List String},
    (∀ a ∈ args, a.data ≠ []) → args ≠ [] → pyJoin ", " args ≠ ""
  | [], _, hne => absurd rfl hne
  | [a], h, _ => by
    intro hc
    exact absurd (congrArg String.data hc) (by simpa using h a (by simp))
  | a :: b :: rest, h, _ => by
    intro hc
    have := congrArg String.data hc
    rw [show pyJoin ", " (a :: b :: rest) = a ++ ", " ++ pyJoin ", " (b :: rest) from rfl,
      String.data_append, String.data_append] at this
    simp [List.append_eq_nil] at this

/-- The source's truthiness test on the joined argument string agrees with
list emptiness, because every produced argument string is non-empty. -/
theorem column_line_eq (colName cts : String) (args : List String)
    (h : ∀ a ∈ args, a.data ≠ []) :
    column_line colName cts args =
      if args = [] then "    " ++ colName ++ " = Column(" ++ cts ++ ")"
      else "    " ++ colName ++ " = Column(" ++ cts ++ ", " ++ pyJoin ", " args ++ ")" := by
  unfold column_line
  cases args with
  | nil => simp [pyJoin]
  | cons a rest =>
    have h1 : (pyJoin ", " (a :: rest) == "") = false :=
      beq_eq_false_iff_ne.mpr (pyJoin_comma_ne_empty h (by simp))
    simp only []
    rw [h1]
    simp

/-! ## Set-accumulator lemmas -/

theorem mem_setAdd {l : List String} {x y : String} :
    y ∈ setAdd l x ↔ y ∈ l ∨ y = x := by
  unfold setAdd
  split
  · next hx =>
    constructor
    · exact Or.inl
    · rintro (h | rfl)
      · exact h
      · exact hx
  · simp [List.mem_append]

theorem nodup_setAdd {l : List String} {x : String} (h : l.Nodup) :
    (setAdd l x).Nodup := by
  unfold setAdd
  split
  · exact h
  · next hx => simp [List.nodup_append, h, hx]

theorem mem_addTokens : ∀ {os : List ColOut} {u : List String} {y : String},
    y ∈ addTokens u os ↔ y ∈ u ∨ ∃ o ∈ os, o.typeToken = y := by
  intro os
  induction os with
  | nil => simp [addTokens]
  | cons o os ih =>
    intro u y
    rw [show addTokens u (o :: os) = addTokens (setAdd u o.typeToken) os from rfl, ih,
      mem_setAdd]
    constructor
    · rintro ((h | rfl) | ⟨o', ho', rfl⟩)
      · exact Or.inl h
      · exact Or.inr ⟨o, by simp⟩
      · exact Or.inr ⟨o', by simp [ho']⟩
    · rintro (h | ⟨o', ho', rfl⟩)
      · exact Or.inl (Or.inl h)
      · rcases List.mem_cons.mp ho' with rfl | ho'
        · exact Or.inl (Or.inr rfl)
        · exact Or.inr ⟨o', ho', rfl⟩

theorem nodup_addTokens : ∀ {os : List ColOut} {u : List String},
    u.Nodup → (addTokens u os).Nodup := by
  intro os
  induction os with
  | nil => exact fun h => h
  | cons o os ih =>
    intro u hu
    exact ih (nodup_setAdd hu)

/-! ## Column-level characterization -/

/-- The six-entry type table maps every tag it knows to itself. -/
theorem lookup_type_map {s t : String} (h : SQLA_TYPE_MAP.lookup s = some t) :
    t = s ∧ s ∈ ["Integer", "String", "DateTime", "Boolean", "Float", "Text"] := by
  by_cases h1 : s = "Integer"
  · subst h1; simp [SQLA_TYPE_MAP, List.lookup] at h; simp [h.symm]
  · by_cases h2 : s = "String"
    · subst h2; simp [SQLA_TYPE_MAP, List.lookup] at h; simp [h.symm]
    · by_cases h3 : s = "DateTime"
      · subst h3; simp [SQLA_TYPE_MAP, List.lookup] at h; simp [h.symm]
      · by_cases h4 : s = "Boolean"
        · subst h4; simp [SQLA_TYPE_MAP, List.lookup] at h; simp [h.symm]
        · by_cases h5 : s = "Float"
          · subst h5; simp [SQLA_TYPE_MAP, List.lookup] at h; simp [h.symm]
          · by_cases h6 : s = "Text"
            · subst h6; simp [SQLA_TYPE_MAP, List.lookup] at h; simp [h.symm]
            · exfalso
              simp [SQLA_TYPE_MAP, List.lookup,
                beq_eq_false_iff_ne.mpr h1, beq_eq_false_iff_ne.mpr h2,
                beq_eq_false_iff_ne.mpr h3, beq_eq_false_iff_ne.mpr h4,
                beq_eq_false_iff_ne.mpr h5, beq_eq_false_iff_ne.mpr h6] at h

/-- The `func`-import contribution of a column is exactly the
`func.`-prefixed-string-default observation. -/
theorem default_part_snd (col : Yaml) : (default_part col).2 = colHasFuncDefault col := by
  unfold default_part colHasFuncDefault
  cases col.get? "default" with
  | none => rfl
  | some dv =>
    cases dv with
    | map kvs => rfl
    | scalar v =>
      cases v with
      | str s =>
        by_cases hf : strLeads "func." s = true
        · simp [hf]
        · simp [Bool.eq_false_iff.mpr hf]
      | int n => rfl
      | bool b => rfl
      | null => rfl

theorem column_args_snd (col : Yaml) : (column_args col).2 = colHasFuncDefault col :=
  default_part_snd col

/-- Success shape of `process_column`: the type tag is a string resolved in
the six-entry table, and the output carries the looked-up token, the
`func`-flag contribution and the rendered line. -/
theorem process_column_ok {tk n : String} {c : Yaml} {o : ColOut}
    (h : process_column tk n c = .ok o) :
    ∃ s, c1_tag c = some s ∧ SQLA_TYPE_MAP.lookup s = some o.typeToken ∧
      o.needsFunc = (column_args c).2 ∧
      o.line = column_line n (column_type_str o.typeToken s c) (column_args c).1 := by
  unfold process_column at h
  split at h
  · next kvs =>
    split at h
    · next tv hty =>
      split at h
      · next s =>
        split at h
        · next tok hlk =>
          rw [Except.ok.injEq] at h
          subst h
          exact ⟨s, by simp [c1_tag, hty], hlk, rfl, rfl⟩
        · exact absurd h (by simp)
      · exact absurd h (by simp)
      · exact absurd h (by simp)
    · exact absurd h (by simp)
  · exact absurd h (by simp)

/-! ## Table- and document-level characterization -/

theorem c1_tag_of_colTagIs {tag : String} {c : Yaml} (h : colTagIs tag c = true) :
    c1_tag c = some tag := by
  unfold colTagIs at h
  split at h
  · next s hmatch =>
    unfold c1_tag
    rw [hmatch]
    have hs : s = tag := by simpa using h
    subst hs
    rfl
  · exact absurd h (by simp)

theorem c1_tag_in_of_colTagIn {allowed : List String} {c : Yaml} {s : String}
    (h : colTagIn allowed c = true) (hs : c1_tag c = some s) : s ∈ allowed := by
  unfold colTagIn at h
  split at h
  · next s' hmatch =>
    unfold c1_tag at hs
    rw [hmatch, Option.some.injEq] at hs
    subst hs
    simpa using h
  · exact absurd h (by simp)

theorem col_results_mem_out {tk : String} : ∀ {cols : List (String × Yaml)}
    {os : List ColOut}, col_results tk cols = .ok os →
    ∀ o ∈ os, ∃ nc ∈ cols, process_column tk nc.1 nc.2 = .ok o := by
  intro cols
  induction cols with
  | nil =>
    intro os h o ho
    rw [show col_results tk [] = .ok [] from rfl, Except.ok.injEq] at h
    subst h
    exact absurd ho (by simp)
  | cons nc rest ih =>
    intro os h o ho
    obtain ⟨n, c⟩ := nc
    unfold col_results at h
    split at h
    · next o1 h1 =>
      split at h
      · next os1 h2 =>
        rw [Except.ok.injEq] at h
        subst h
        rcases List.mem_cons.mp ho with rfl | ho'
        · exact ⟨(n, c), by simp, h1⟩
        · obtain ⟨nc', hm, hp⟩ := ih h2 o ho'
          exact ⟨nc', List.mem_cons_of_mem _ hm, hp⟩
      · exact absurd h (by simp)
    · exact absurd h (by simp)

theorem col_results_mem_in {tk : String} : ∀ {cols : List (String × Yaml)}
    {os : List ColOut}, col_results tk cols = .ok os →
    ∀ nc ∈ cols, ∃ o ∈ os, process_column tk nc.1 nc.2 = .ok o := by
  intro cols
  induction cols with
  | nil => intro os _ nc hm; exact absurd hm (by simp)
  | cons nc0 rest ih =>
    intro os h nc hm
    obtain ⟨n, c⟩ := nc0
    unfold col_results at h
    split at h
    · next o1 h1 =>
      split at h
      · next os1 h2 =>
        rw [Except.ok.injEq] at h
        subst h
        rcases List.mem_cons.mp hm with rfl | hm'
        · exact ⟨o1, by simp, h1⟩
        · obtain ⟨o, ho, hp⟩ := ih h2 nc hm'
          exact ⟨o, List.mem_cons_of_mem _ ho, hp⟩
      · exact absurd h (by simp)
    · exact absurd h (by simp)

theorem col_results_any_func {tk : String} : ∀ {cols : List (String × Yaml)}
    {os : List ColOut}, col_results tk cols = .ok os →
    os.any (·.needsFunc) = cols.any (fun nc => colHasFuncDefault nc.2) := by
  intro cols
  induction cols with
  | nil =>
    intro os h
    rw [show col_results tk [] = .ok [] from rfl, Except.ok.injEq] at h
    subst h
    rfl
  | cons nc0 rest ih =>
    intro os h
    obtain ⟨n, c⟩ := nc0
    unfold col_results at h
    split at h
    · next o1 h1 =>
      split at h
      · next os1 h2 =>
        rw [Except.ok.injEq] at h
        subst h
        obtain ⟨s, _, _, hnf, _⟩ := process_column_ok h1
        rw [List.any_cons, List.any_cons, ih h2, hnf, column_args_snd]
      · exact absurd h (by simp)
    · exact absurd h (by simp)

/-- Success shape of `process_table`: the columns mapping processed to `os`,
the used-type set grew by `os`'s tokens, the flag by `os`'s contributions,
and the lines only grew. -/
theorem process_table_ok {tk : String} {t : Yaml} {acc st : GenAcc}
    (h : process_table tk t acc = .ok st) :
    ∃ os, col_results tk (tableCols t) = .ok os ∧
      st.usedTypes = addTokens acc.usedTypes os ∧
      st.needsFunc = (acc.needsFunc || os.any (·.needsFunc)) ∧
      ∃ mid, st.lines = acc.lines ++ mid := by
  unfold process_table at h
  split at h
  · next kvs =>
    split at h
    · next ds hds =>
      split at h
      · next cols hc =>
        split at h
        · next os hos =>
          rw [Except.ok.injEq] at h
          subst h
          refine ⟨os, ?_, rfl, rfl,
            ⟨["class " ++ resolved_class_name tk (Yaml.map kvs) ++ "(Base):"] ++ ds
              ++ ["    __tablename__ = '" ++ resolved_table_name tk (Yaml.map kvs) ++ "'", ""]
              ++ os.map (·.line) ++ [""], ?_⟩⟩
          · unfold tableCols
            rw [hc]
            exact hos
          · simp [List.append_assoc]
        · exact absurd h (by simp)
      · exact absurd h (by simp)
    · exact absurd h (by simp)
  · exact absurd h (by simp)

theorem process_tables_used_sub : ∀ {ts : List (String × Yaml)} {acc st : GenAcc},
    process_tables ts acc = .ok st → ∀ y ∈ acc.usedTypes, y ∈ st.usedTypes := by
  intro ts
  induction ts with
  | nil =>
    intro acc st h y hy
    rw [show process_tables [] acc = .ok acc from rfl, Except.ok.injEq] at h
    subst h
    exact hy
  | cons kt rest ih =>
    intro acc st h y hy
    obtain ⟨k, t⟩ := kt
    unfold process_tables at h
    split at h
    · next acc2 h1 =>
      obtain ⟨os, _, hu, _, _⟩ := process_table_ok h1
      exact ih h y (by rw [hu]; exact mem_addTokens.mpr (Or.inl hy))
    · exact absurd h (by simp)

theorem process_tables_nodup : ∀ {ts : List (String × Yaml)} {acc st : GenAcc},
    process_tables ts acc = .ok st → acc.usedTypes.Nodup → st.usedTypes.Nodup := by
  intro ts
  induction ts with
  | nil =>
    intro acc st h hn
    rw [show process_tables [] acc = .ok acc from rfl, Except.ok.injEq] at h
    subst h
    exact hn
  | cons kt rest ih =>
    intro acc st h hn
    obtain ⟨k, t⟩ := kt
    unfold process_tables at h
    split at h
    · next acc2 h1 =>
      obtain ⟨os, _, hu, _, _⟩ := process_table_ok h1
      exact ih h (by rw [hu]; exact nodup_addTokens hn)
    · exact absurd h (by simp)

theorem process_tables_used_src : ∀ {ts : List (String × Yaml)} {acc st : GenAcc},
    process_tables ts acc = .ok st → ∀ y ∈ st.usedTypes,
      y ∈ acc.usedTypes ∨ ∃ kt ∈ ts, ∃ kc ∈ tableCols kt.2, ∃ o,
        process_column kt.1 kc.1 kc.2 = .ok o ∧ o.typeToken = y := by
  intro ts
  induction ts with
  | nil =>
    intro acc st h y hy
    rw [show process_tables [] acc = .ok acc from rfl, Except.ok.injEq] at h
    subst h
    exact Or.inl hy
  | cons kt rest ih =>
    intro acc st h y hy
    obtain ⟨k, t⟩ := kt
    unfold process_tables at h
    split at h
    · next acc2 h1 =>
      obtain ⟨os, hos, hu, _, _⟩ := process_table_ok h1
      rcases ih h y hy with hy2 | ⟨kt', hm', hrest⟩
      · rw [hu] at hy2
        rcases mem_addTokens.mp hy2 with hy3 | ⟨o, ho, rfl⟩
        · exact Or.inl hy3
        · obtain ⟨nc, hnc, hp⟩ := col_results_mem_out hos o ho
          refine Or.inr ⟨(k, t), by simp, nc, hnc, o, hp, rfl⟩
      · exact Or.inr ⟨kt', List.mem_cons_of_mem _ hm', hrest⟩
    · exact absurd h (by simp)

theorem process_tables_tag_mem : ∀ {ts : List (String × Yaml)} {acc st : GenAcc},
    process_tables ts acc = .ok st → ∀ kt ∈ ts, ∀ kc ∈ tableCols kt.2,
      ∀ {tag : String}, colTagIs tag kc.2 = true → tag ∈ st.usedTypes := by
  intro ts
  induction ts with
  | nil => intro acc st _ kt hm; exact absurd hm (by simp)
  | cons kt0 rest ih =>
    intro acc st h kt hm kc hkc tag htag
    obtain ⟨k, t⟩ := kt0
    unfold process_tables at h
    split at h
    · next acc2 h1 =>
      rcases List.mem_cons.mp hm with rfl | hm'
      · obtain ⟨os, hos, hu, _, _⟩ := process_table_ok h1
        obtain ⟨o, ho, hp⟩ := col_results_mem_in hos kc hkc
        obtain ⟨s, htg, hlk, _, _⟩ := process_column_ok hp
        rw [c1_tag_of_colTagIs htag, Option.some.injEq] at htg
        subst htg
        obtain ⟨htok, _⟩ := lookup_type_map hlk
        have : tag ∈ acc2.usedTypes := by
          rw [hu]
          exact mem_addTokens.mpr (Or.inr ⟨o, ho, htok⟩)
        exact process_tables_used_sub h tag this
      · exact ih h kt hm' kc hkc htag
    · exact absurd h (by simp)

theorem process_tables_needsFunc : ∀ {ts : List (String × Yaml)} {acc st : GenAcc},
    process_tables ts acc = .ok st →
    st.needsFunc = (acc.needsFunc ||
      ts.any fun kt => (tableCols kt.2).any fun kc => colHasFuncDefault kc.2) := by
  intro ts
  induction ts with
  | nil =>
    intro acc st h
    rw [show process_tables [] acc = .ok acc from rfl, Except.ok.injEq] at h
    subst h
    simp
  | cons kt0 rest ih =>
    intro acc st h
    obtain ⟨k, t⟩ := kt0
    unfold process_tables at h
    split at h
    · next acc2 h1 =>
      obtain ⟨os, hos, _, hnf, _⟩ := process_table_ok h1
      rw [ih h, hnf, col_results_any_func hos, List.any_cons, Bool.or_assoc]
    · exact absurd h (by simp)

/-- Success shape of `collect`: the document is a mapping with a `tables`
mapping, processed from the empty accumulator. -/
theorem collect_ok {doc : Yaml} {st : GenAcc} (h : collect doc = .ok st) :
    process_tables (docTables doc) ⟨[], false, []⟩ = .ok st := by
  unfold collect at h
  split at h
  · next kvs =>
    split at h
    · next ts hts =>
      unfold docTables
      rw [hts]
      exact h
    · exact absurd h (by simp)
  · exact absurd h (by simp)

theorem collect_nodup {doc : Yaml} {st : GenAcc} (h : collect doc = .ok st) :
    st.usedTypes.Nodup :=
  process_tables_nodup (collect_ok h) List.nodup_nil

theorem collect_used_sub_six {doc : Yaml} {st : GenAcc} (h : collect doc = .ok st) :
    ∀ y ∈ st.usedTypes, y ∈ ["Integer", "String", "DateTime", "Boolean", "Float", "Text"] := by
  intro y hy
  rcases process_tables_used_src (collect_ok h) y hy with hy0 | ⟨_, _, _, _, o, hp, rfl⟩
  · exact absurd hy0 (by simp)
  · obtain ⟨s, _, hlk, _, _⟩ := process_column_ok hp
    obtain ⟨rfl, hmem⟩ := lookup_type_map hlk
    exact hmem

theorem collect_used_allowed {doc : Yaml} {st : GenAcc} {allowed : List String}
    (h : collect doc = .ok st) (hall : docAllTagsIn allowed doc = true) :
    ∀ y ∈ st.usedTypes, y ∈ allowed := by
  intro y hy
  rcases process_tables_used_src (collect_ok h) y hy with hy0 | ⟨kt, hkt, kc, hkc, o, hp, rfl⟩
  · exact absurd hy0 (by simp)
  · obtain ⟨s, htg, hlk, _, _⟩ := process_column_ok hp
    obtain ⟨rfl, _⟩ := lookup_type_map hlk
    have hin : colTagIn allowed kc.2 = true := by
      have h1 := (List.all_eq_true.mp hall) kt hkt
      exact (List.all_eq_true.mp h1) kc hkc
    exact c1_tag_in_of_colTagIn hin htg

theorem collect_tag_mem {doc : Yaml} {st : GenAcc} {tag : String}
    (h : collect doc = .ok st) (htag : docSomeTag tag doc = true) :
    tag ∈ st.usedTypes := by
  obtain ⟨kt, hkt, hx⟩ := List.any_eq_true.mp htag
  obtain ⟨kc, hkc, hcol⟩ := List.any_eq_true.mp hx
  exact process_tables_tag_mem (collect_ok h) kt hkt kc hkc hcol

theorem collect_needsFunc {doc : Yaml} {st : GenAcc} (h : collect doc = .ok st) :
    st.needsFunc = docHasFuncDefault doc := by
  rw [process_tables_needsFunc (collect_ok h)]
  unfold docHasFuncDefault
  simp

/-! ## Import-assembly lemmas -/

theorem foldl_setAdd_eq : ∀ (l g : List String), l.Nodup →
    l.foldl (fun g t => if t ∈ g then g else g ++ [t]) g
      = g ++ l.filter fun t => decide (t ∉ g) := by
  intro l
  induction l with
  | nil => intro g _; simp
  | cons t rest ih =>
    intro g hn
    rw [List.foldl_cons]
    by_cases ht : t ∈ g
    · rw [if_pos ht, ih g (List.Nodup.of_cons hn)]
      simp [List.filter_cons, ht]
    · rw [if_neg ht, ih (g ++ [t]) (List.Nodup.of_cons hn)]
      have hfc : (rest.filter fun x => decide (x ∉ g ++ [t]))
          = rest.filter fun x => decide (x ∉ g) := by
        apply List.filter_congr
        intro x hx
        have hxt : x ≠ t := by
          intro hc
          subst hc
          exact (List.nodup_cons.mp hn).1 hx
        simp [List.mem_append, hxt]
      rw [hfc]
      simp [List.filter_cons, ht, List.append_assoc]

theorem build_general_eq {l : List String} (h : l.Nodup) :
    build_general l = "Column" :: l.filter fun t => decide (t ∉ (["Column"] : List String)) := by
  unfold build_general
  rw [foldl_setAdd_eq l ["Column"] h]
  rfl

theorem build_general_no_col {l : List String} (hn : l.Nodup) (hc : "Column" ∉ l) :
    build_general l = "Column" :: l := by
  rw [build_general_eq hn]
  congr 1
  rw [List.filter_eq_self]
  intro a ha
  simp only [List.mem_singleton, decide_eq_true_eq]
  intro hac
  subst hac
  exact hc ha

/-- The assembled import block does not depend on the iteration order of the
used-type set: any two orders with the same elements sort identically. -/
theorem imports_of_perm {acc : GenAcc} {l₁ l₂ : List String}
    (hn : l₁.Nodup) (hp : l₁.Perm l₂) : imports_of acc l₁ = imports_of acc l₂ := by
  unfold imports_of
  have hs : sortStr (build_general l₁) = sortStr (build_general l₂) := by
    rw [build_general_eq hn, build_general_eq (hp.nodup_iff.mp hn)]
    exact sortStr_eq_of_perm ((hp.filter _).cons _)
  rw [hs]

theorem assemble_perm {acc : GenAcc} {l₁ l₂ : List String}
    (hn : l₁.Nodup) (hp : l₁.Perm l₂) : assemble acc l₁ = assemble acc l₂ := by
  unfold assemble
  rw [imports_of_perm hn hp]

/-! ## Argument-list helpers -/

theorem mem_if_singleton {c : Prop} [Decidable c] {x s : String}
    (h : x ∈ if c then [s] else ([] : List String)) : x = s := by
  split at h
  · simpa using h
  · exact absurd h (by simp)

theorem default_part_fst_cases (col : Yaml) :
    (default_part col).1 = [] ∨
    (∃ s, (default_part col).1 = ["server_default=" ++ s]) ∨
    (∃ v, (default_part col).1 = ["default=" ++ normalize_yaml_value v]) := by
  unfold default_part
  cases col.get? "default" with
  | none => exact Or.inl rfl
  | some dv =>
    cases dv with
    | map kvs => exact Or.inr (Or.inr ⟨.map kvs, rfl⟩)
    | scalar v =>
      cases v with
      | str s =>
        by_cases hf : strLeads "func." s = true
        · exact Or.inr (Or.inl ⟨s, by simp [hf]⟩)
        · refine Or.inr (Or.inr ⟨.scalar (.str s), ?_⟩)
          simp [Bool.eq_false_iff.mpr hf]
      | int n => exact Or.inr (Or.inr ⟨.scalar (.int n), rfl⟩)
      | bool b => exact Or.inr (Or.inr ⟨.scalar (.bool b), rfl⟩)
      | null => exact Or.inr (Or.inr ⟨.scalar .null, rfl⟩)

/-- Membership in the produced argument list decomposes along the seven
append segments. -/
theorem mem_column_args {x : String} {col : Yaml} (h : x ∈ (column_args col).1) :
    x = "primary_key=True" ∨ x = "autoincrement=True" ∨
    (isFalseOpt (col.get? "nullable") = true ∧ x = "nullable=False") ∨
    x = "unique=True" ∨ x ∈ (default_part col).1 ∨ x = "index=True" ∨
    (∃ cv, col.get? "comment" = some cv ∧ x = "comment=" ++ normalize_yaml_value cv) := by
  unfold column_args at h
  simp only [List.mem_append] at h
  rcases h with ((((((h | h) | h) | h) | h) | h) | h)
  · exact Or.inl (mem_if_singleton h)
  · exact Or.inr (Or.inl (mem_if_singleton h))
  · refine Or.inr (Or.inr (Or.inl ?_))
    constructor
    · by_contra hc
      rw [if_neg (by simpa using hc)] at h
      exact absurd h (by simp)
    · exact mem_if_singleton h
  · exact Or.inr (Or.inr (Or.inr (Or.inl (mem_if_singleton h))))
  · exact Or.inr (Or.inr (Or.inr (Or.inr (Or.inl h))))
  · exact Or.inr (Or.inr (Or.inr (Or.inr (Or.inr (Or.inl (mem_if_singleton h))))))
  · refine Or.inr (Or.inr (Or.inr (Or.inr (Or.inr (Or.inr ?_)))))
    rcases hcv : col.get? "comment" with _ | cv
    · rw [hcv] at h
      exact absurd h (by simp)
    · rw [hcv] at h
      exact ⟨cv, rfl, (by simpa using h)⟩

/-- The `func` import line appears in the assembled import block exactly
when the flag is set: it is never equal to the combined-type line (different
fixed head) nor to the `declarative_base` line. -/
theorem func_import_iff (st : GenAcc) (iter : List String) :
    ("from sqlalchemy.sql import func" ∈ imports_of st iter) ↔ st.needsFunc = true := by
  unfold imports_of
  rw [List.Perm.mem_iff (sortStr_perm _), List.mem_dedup]
  cases hnf : st.needsFunc with
  | true =>
    constructor
    · intro _
      rfl
    · intro _
      simp
  | false =>
    constructor
    · intro h
      simp only [Bool.false_eq_true, if_false, List.nil_append] at h
      rcases List.mem_append.mp h with h | h
      · exact absurd (List.mem_singleton.mp h).symm (str_ne_of_not_leads _ (by decide))
      · exact absurd (List.mem_singleton.mp h) (by decide)
    · intro h
      exact absurd h (by simp)

/-! ## Claim theorems -/

/-- C2: generation is deterministic. The embedding is a pure function, so
the one genuine nondeterminism source in the Python code is the iteration
order of the `used_sqlalchemy_types` set; for any two iteration orders of
that set (permutations of its element list), assembly yields byte-identical
output text, because the type tokens and the import block are sorted before
rendering. Tables are processed in document order by construction
(`process_tables` walks the association list in order). -/
theorem c2_generation_deterministic (doc : Yaml) (st : GenAcc) (l₁ l₂ : List String)
    (hok : collect doc = .ok st)
    (h₁ : l₁.Perm st.usedTypes) (h₂ : l₂.Perm st.usedTypes) :
    assemble st l₁ = assemble st l₂ :=
  assemble_perm (h₁.nodup_iff.mpr (collect_nodup hok)) (h₁.trans h₂.symm)

/-- Witness for C2 at a concrete schema and two set-iteration orders. -/
theorem c2_witness :
    assemble ⟨["Integer", "String"], false,
      ["class Acct(Base):", "    __tablename__ = 'acct'", "",
       "    id = Column(Integer, primary_key=True)",
       "    name = Column(String(length=50), nullable=False, default='anon')", ""]⟩
      ["String", "Integer"] =
    assemble ⟨["Integer", "String"], false,
      ["class Acct(Base):", "    __tablename__ = 'acct'", "",
       "    id = Column(Integer, primary_key=True)",
       "    name = Column(String(length=50), nullable=False, default='anon')", ""]⟩
      ["Integer", "String"] :=
  c2_generation_deterministic docIntStr _ ["String", "Integer"] ["Integer", "String"]
    rfl (by decide) (by decide)

/-- C3 counterexample: the claim says the combined import line carries "the
tokens sorted alphabetically and the base helper name first", but the source
sorts `Column` together with the used type tokens, so for a schema using
`Boolean` the emitted line is `from sqlalchemy import Boolean, Column` — the
base helper is not first. -/
theorem c3_counterexample :
    okFirstLine (generate_models_code docBool) = "from sqlalchemy import Boolean, Column" ∧
    c3_claim_type_line ["Boolean"] = "from sqlalchemy import Column, Boolean" ∧
    ("from sqlalchemy import Boolean, Column" : String) ≠
      "from sqlalchemy import Column, Boolean" :=
  ⟨rfl, rfl, by decide⟩

/-- C8 counterexample: the three failure kinds — missing source file,
malformed syntax, shape violation — are all raised as the same Python
exception type `ValueError`; there are no three distinguishable error
types. -/
theorem c8_counterexample :
    generate_models_code_from_file "schema.yml" .fileMissing =
      .error ⟨"ValueError",
        "エラー: YAMLスキーマファイル 'schema.yml' が見つかりません。"⟩ ∧
    generate_models_code_from_file "schema.yml"
        (.parseFailed "mapping values are not allowed here") =
      .error ⟨"ValueError",
        "エラー: YAMLスキーマファイル 'schema.yml' の解析に失敗しました: mapping values are not allowed here"⟩ ∧
    generate_models_code_from_file "schema.yml" (.loaded (.scalar .null)) =
      .error ⟨"ValueError",
        "無効なYAMLスキーマ: 'tables' セクションが見つからないか、不正な形式です。"⟩ :=
  ⟨rfl, rfl, rfl⟩

/-- C9 counterexample: the unsupported-type message for column `c` of table
`zzz_tbl` names the type and the column but does not name the table. -/
theorem c9_counterexample :
    collect docJson = .error ⟨"ValueError",
      "サポートされていないSQLAlchemyの型 'JSON' がカラム 'c' に指定されています。"⟩ ∧
    strHasRun "zzz_tbl"
      "サポートされていないSQLAlchemyの型 'JSON' がカラム 'c' に指定されています。" = false :=
  ⟨rfl, rfl⟩

/-- C10 counterexample: for a table with a present, empty `columns` mapping
the emitted block is the class header, the table-name binding and TWO blank
lines (the separator after the binding, `main.py` line 94, and the trailing
table-separator blank, line 145) — not the single blank line the claim's
enumeration allows. -/
theorem c10_counterexample :
    collect docEmptyCols = .ok ⟨[], false,
      ["class T(Base):", "    __tablename__ = 't'", "", ""]⟩ ∧
    (["class T(Base):", "    __tablename__ = 't'", "", ""] : List String) ≠
      ["class T(Base):", "    __tablename__ = 't'", ""] :=
  ⟨rfl, by decide⟩

/-- C6 counterexample: the claim's derivation — "first letter of each
segment capitalized", the rest untouched — predicts `UserPROFILE` for the
key `user_pROFILE`, but Python's `str.capitalize()` also lowercases the rest
of each segment, so the code derives `UserProfile`. -/
theorem c6_counterexample :
    collect docMixedKey = .ok ⟨[], false,
      ["class UserProfile(Base):", "    __tablename__ = 'user_profile'", "", ""]⟩ ∧
    c6_claim_class_name "user_pROFILE" = "UserPROFILE" ∧
    ("UserProfile" : String) ≠ "UserPROFILE" :=
  ⟨rfl, rfl, by decide⟩

/-- C7: `nullable: false` produces the explicit `nullable=False` argument;
no `nullable` key, or `nullable: true`, produces no nullable-related
argument at all (the only nullable-related argument the renderer can emit is
the exact string `nullable=False`: every other argument is a different fixed
literal or carries a different fixed head such as `comment=`). -/
theorem c7_nullable_asymmetry (col : Yaml) :
    (col.get? "nullable" = some (.scalar (.bool false)) →
      "nullable=False" ∈ (column_args col).1) ∧
    ((col.get? "nullable" = Option.none ∨
      col.get? "nullable" = some (.scalar (.bool true))) →
      "nullable=False" ∉ (column_args col).1) := by
  constructor
  · intro h
    have hf : isFalseOpt (col.get? "nullable") = true := by rw [h]; rfl
    unfold column_args
    simp [List.mem_append, hf]
  · intro h hc
    have hf : isFalseOpt (col.get? "nullable") = false := by
      rcases h with h | h <;> rw [h] <;> rfl
    rcases mem_column_args hc with h1 | h1 | ⟨h1, _⟩ | h1 | h1 | h1 | ⟨cv, _, h1⟩
    · exact absurd h1 (by decide)
    · exact absurd h1 (by decide)
    · rw [hf] at h1
      exact absurd h1 (by simp)
    · exact absurd h1 (by decide)
    · rcases default_part_fst_cases col with h2 | ⟨s, h2⟩ | ⟨v, h2⟩
      · rw [h2] at h1
        exact absurd h1 (by simp)
      · rw [h2] at h1
        exact absurd (List.mem_singleton.mp h1).symm
          (str_ne_of_not_leads s (by decide))
      · rw [h2] at h1
        exact absurd (List.mem_singleton.mp h1).symm
          (str_ne_of_not_leads (normalize_yaml_value v) (by decide))
    · exact absurd h1 (by decide)
    · exact absurd h1.symm
        (str_ne_of_not_leads (normalize_yaml_value cv) (by decide))

/-- Witness for C7 on a `nullable: false` column and a `nullable: true`
column. -/
theorem c7_witness :
    "nullable=False" ∈ (column_args colNotNullEx).1 ∧
    "nullable=False" ∉ (column_args colNullableEx).1 :=
  ⟨(c7_nullable_asymmetry colNotNullEx).1 rfl,
   (c7_nullable_asymmetry colNullableEx).2 (Or.inr rfl)⟩

/-- C4: default-value branching. A string default carrying the reserved
`func.` prefix yields a `server_default=` argument with the value verbatim
and forces the `func` import into the output block; any other default yields
a `default=` argument with the literal-normalized value and contributes
nothing to the `func` import, which appears in the assembled imports exactly
when some column of the schema has a `func.`-prefixed string default. -/
theorem c4_default_branching :
    (∀ (col : Yaml) (s : String),
      col.get? "default" = some (.scalar (.str s)) → strLeads "func." s = true →
        "server_default=" ++ s ∈ (column_args col).1 ∧ (column_args col).2 = true) ∧
    (∀ (col : Yaml) (dv : Yaml), col.get? "default" = some dv →
      colHasFuncDefault col = false →
        "default=" ++ normalize_yaml_value dv ∈ (column_args col).1 ∧
          (column_args col).2 = false) ∧
    (∀ (doc : Yaml) (st : GenAcc), collect doc = .ok st →
      (("from sqlalchemy.sql import func" ∈ imports_of st st.usedTypes) ↔
        docHasFuncDefault doc = true)) := by
  refine ⟨?_, ?_, ?_⟩
  · intro col s h hf
    have hdp : (default_part col).1 = ["server_default=" ++ s] := by
      unfold default_part
      rw [h]
      simp [hf]
    constructor
    · unfold column_args
      simp [List.mem_append, hdp]
    · rw [column_args_snd]
      unfold colHasFuncDefault
      rw [h]
      exact hf
  · intro col dv h hnf
    have hdp : (default_part col).1 = ["default=" ++ normalize_yaml_value dv] := by
      unfold default_part
      rw [h]
      cases dv with
      | map kvs => rfl
      | scalar v =>
        cases v with
        | str s =>
          unfold colHasFuncDefault at hnf
          rw [h] at hnf
          have hnf' : strLeads "func." s = false := by simpa using hnf
          simp [hnf']
        | int n => rfl
        | bool b => rfl
        | null => rfl
    constructor
    · unfold column_args
      simp [List.mem_append, hdp]
    · rw [column_args_snd]
      exact hnf
  · intro doc st hok
    rw [func_import_iff, collect_needsFunc hok]

/-- Witness for C4: a `func.now()` default, a literal `0` default, and the
presence of the `func` import for the concrete one-column schema using
`func.now()`. -/
theorem c4_witness :
    ("server_default=" ++ "func.now()" ∈ (column_args colFuncEx).1 ∧
      (column_args colFuncEx).2 = true) ∧
    ("default=" ++ normalize_yaml_value (.scalar (.int 0)) ∈ (column_args colZeroEx).1 ∧
      (column_args colZeroEx).2 = false) ∧
    ("from sqlalchemy.sql import func" ∈
      imports_of ⟨["DateTime"], true,
        ["class Ev(Base):", "    __tablename__ = 'ev'", "",
         "    ts = Column(DateTime, server_default=func.now())", ""]⟩ ["DateTime"]) :=
  ⟨c4_default_branching.1 colFuncEx "func.now()" rfl rfl,
   c4_default_branching.2.1 colZeroEx (.scalar (.int 0)) rfl rfl,
   (c4_default_branching.2.2 docFunc _ rfl).mpr rfl⟩

/-- C5: import minimality. For a schema whose columns use only the
`Integer` and `String` type tags (both actually used) and which has no
`func.`-prefixed default, the assembled import block is exactly the combined
line naming `Column`, `Integer`, `String` and the `declarative_base` line —
no other type token and no `func` import. -/
theorem c5_import_minimality (doc : Yaml) (st : GenAcc)
    (hok : collect doc = .ok st)
    (hall : docAllTagsIn ["Integer", "String"] doc = true)
    (hInt : docSomeTag "Integer" doc = true)
    (hStr : docSomeTag "String" doc = true)
    (hfunc : docHasFuncDefault doc = false) :
    imports_of st st.usedTypes =
      ["from sqlalchemy import Column, Integer, String",
       "from sqlalchemy.ext.declarative import declarative_base"] := by
  have hsub := collect_used_allowed hok hall
  have hnd := collect_nodup hok
  have hperm : st.usedTypes.Perm ["Integer", "String"] := by
    apply List.Subperm.antisymm
    · exact List.subperm_of_subset hnd fun y hy => hsub y hy
    · apply List.subperm_of_subset (by decide)
      intro y hy
      rcases (by simpa using hy : y = "Integer" ∨ y = "String") with rfl | rfl
      · exact collect_tag_mem hok hInt
      · exact collect_tag_mem hok hStr
  have hflag : st.needsFunc = false := by
    rw [collect_needsFunc hok]
    exact hfunc
  have hCol : "Column" ∉ st.usedTypes := by
    intro hc
    have := hsub _ hc
    simp at this
  unfold imports_of
  rw [hflag, build_general_no_col hnd hCol,
    sortStr_eq_of_perm (hperm.cons "Column")]
  rfl

/-- Witness for C5 at the concrete Integer/String schema. -/
theorem c5_witness :
    imports_of ⟨["Integer", "String"], false,
      ["class Acct(Base):", "    __tablename__ = 'acct'", "",
       "    id = Column(Integer, primary_key=True)",
       "    name = Column(String(length=50), nullable=False, default='anon')", ""]⟩
      ["Integer", "String"] =
    ["from sqlalchemy import Column, Integer, String",
     "from sqlalchemy.ext.declarative import declarative_base"] :=
  c5_import_minimality docIntStr _ rfl rfl rfl rfl rfl

/-- C3, amended: the output is the import block, a blank line, the
base-class instantiation, a blank line, and the model lines; the import
block is the sorted deduplication of the combined `from sqlalchemy import`
line (whose tokens are the base helper `Column` plus every distinct used
type token, all sorted alphabetically together — the helper is NOT forced
first), the `func` import exactly when the flag is set, and the
`declarative_base` import; and the flag is set iff some column's default
uses the reserved `func.` prefix. -/
theorem c3_amended_import_block (doc : Yaml) (st : GenAcc)
    (hok : collect doc = .ok st) :
    generate_models_code doc = .ok (
      pyJoin "\n" (sortStr
        ((["from sqlalchemy import "
            ++ pyJoin ", " (sortStr ("Column" :: st.usedTypes))]
          ++ (if st.needsFunc then ["from sqlalchemy.sql import func"] else [])
          ++ ["from sqlalchemy.ext.declarative import declarative_base"]).dedup))
      ++ "\n\n" ++ "Base = declarative_base()\n\n" ++ pyJoin "\n" st.lines) ∧
    st.needsFunc = docHasFuncDefault doc := by
  have hnd := collect_nodup hok
  have hCol : "Column" ∉ st.usedTypes := by
    intro hc
    have := collect_used_sub_six hok _ hc
    simp at this
  constructor
  · have hg : generate_models_code doc = .ok (assemble st st.usedTypes) := by
      unfold generate_models_code
      rw [hok]
    rw [hg]
    unfold assemble imports_of
    rw [build_general_no_col hnd hCol]
  · exact collect_needsFunc hok

/-- Witness for the amended C3 at the concrete `func.now()` schema. -/
theorem c3_witness :
    generate_models_code docFunc = .ok (
      pyJoin "\n" (sortStr
        ((["from sqlalchemy import "
            ++ pyJoin ", " (sortStr ("Column" :: ["DateTime"]))]
          ++ (if true then ["from sqlalchemy.sql import func"] else [])
          ++ ["from sqlalchemy.ext.declarative import declarative_base"]).dedup))
      ++ "\n\n" ++ "Base = declarative_base()\n\n"
      ++ pyJoin "\n" ["class Ev(Base):", "    __tablename__ = 'ev'", "",
          "    ts = Column(DateTime, server_default=func.now())", ""]) ∧
    (true = docHasFuncDefault docFunc) :=
  c3_amended_import_block docFunc
    ⟨["DateTime"], true,
      ["class Ev(Base):", "    __tablename__ = 'ev'", "",
       "    ts = Column(DateTime, server_default=func.now())", ""]⟩ rfl

/-- C6, amended: when `class_name` is absent the emitted class header uses
the table key split on underscores with each segment's first letter
uppercased and its remaining letters lowercased, concatenated; when
`table_name` is absent the table-name binding uses the lowercased raw
key. -/
theorem process_table_ok_lines {tk : String} {t : Yaml} {acc st : GenAcc}
    (h : process_table tk t acc = .ok st) :
    ∃ ds os, docstring_lines t = .ok ds ∧ col_results tk (tableCols t) = .ok os ∧
      st.lines = acc.lines ++ ["class " ++ resolved_class_name tk t ++ "(Base):"] ++ ds
        ++ ["    __tablename__ = '" ++ resolved_table_name tk t ++ "'", ""]
        ++ os.map (·.line) ++ [""] := by
  unfold process_table at h
  split at h
  · next kvs =>
    split at h
    · next ds hds =>
      split at h
      · next cols hc =>
        split at h
        · next os hos =>
          rw [Except.ok.injEq] at h
          subst h
          refine ⟨ds, os, hds, ?_, rfl⟩
          unfold tableCols
          rw [hc]
          exact hos
        · exact absurd h (by simp)
      · exact absurd h (by simp)
    · exact absurd h (by simp)
  · exact absurd h (by simp)

/-- C6, amended, stated for each half independently: for every table the
generator accepts, when `class_name` is absent the emitted class header uses
the table key split on underscores with each segment's first letter
uppercased and its remaining letters lowercased, concatenated; and when
`table_name` is absent the table-name binding line of the table's block uses
the lowercased raw key. -/
theorem c6_amended_name_derivation :
    (∀ (tk : String) (t : Yaml) (acc st : GenAcc),
      process_table tk t acc = .ok st → t.get? "class_name" = Option.none →
      ∃ rest, st.lines = acc.lines
        ++ ("class " ++ c6_amended_class_name tk ++ "(Base):") :: rest) ∧
    (∀ (tk : String) (t : Yaml) (acc st : GenAcc),
      process_table tk t acc = .ok st → t.get? "table_name" = Option.none →
      ∃ pre rest, st.lines = acc.lines ++ pre
        ++ ("    __tablename__ = '" ++ pyLower tk ++ "'") :: rest) := by
  constructor
  · intro tk t acc st hok hcn
    obtain ⟨ds, os, _, _, hlines⟩ := process_table_ok_lines hok
    have hcls : resolved_class_name tk t = c6_amended_class_name tk := by
      unfold resolved_class_name
      rw [hcn]
      rfl
    refine ⟨ds ++ ["    __tablename__ = '" ++ resolved_table_name tk t ++ "'", ""]
      ++ os.map (·.line) ++ [""], ?_⟩
    rw [hlines, hcls]
    simp [List.append_assoc]
  · intro tk t acc st hok htn
    obtain ⟨ds, os, _, _, hlines⟩ := process_table_ok_lines hok
    have htbl : resolved_table_name tk t = pyLower tk := by
      unfold resolved_table_name
      rw [htn]
    refine ⟨["class " ++ resolved_class_name tk t ++ "(Base):"] ++ ds,
      [""] ++ os.map (·.line) ++ [""], ?_⟩
    rw [hlines, htbl]
    simp [List.append_assoc]

/-- Witness for the amended C6: both halves at the key `user_pROFILE` (no
explicit `class_name`, no explicit `table_name`). -/
theorem c6_witness :
    (∃ rest, (GenAcc.mk [] false
        ["class UserProfile(Base):", "    __tablename__ = 'user_profile'", "", ""]).lines
      = (GenAcc.mk [] false []).lines
        ++ ("class " ++ c6_amended_class_name "user_pROFILE" ++ "(Base):") :: rest) ∧
    (∃ pre rest, (GenAcc.mk [] false
        ["class UserProfile(Base):", "    __tablename__ = 'user_profile'", "", ""]).lines
      = (GenAcc.mk [] false []).lines ++ pre
        ++ ("    __tablename__ = '" ++ pyLower "user_pROFILE" ++ "'") :: rest) :=
  ⟨c6_amended_name_derivation.1 "user_pROFILE" (.map [("columns", .map [])])
    ⟨[], false, []⟩
    ⟨[], false, ["class UserProfile(Base):", "    __tablename__ = 'user_profile'", "", ""]⟩
    rfl rfl,
   c6_amended_name_derivation.2 "user_pROFILE" (.map [("columns", .map [])])
    ⟨[], false, []⟩
    ⟨[], false, ["class UserProfile(Base):", "    __tablename__ = 'user_profile'", "", ""]⟩
    rfl rfl⟩

/-! ## C1: the column declaration line follows the spec's construction -/

theorem default_part_fst_eq (col : Yaml) : (default_part col).1 = c1_default_args col := by
  unfold default_part c1_default_args
  cases col.get? "default" with
  | none => rfl
  | some dv =>
    cases dv with
    | map kvs => rfl
    | scalar v =>
      cases v with
      | str s =>
        by_cases hf : strLeads "func." s = true
        · simp [hf]
        · simp [Bool.eq_false_iff.mpr hf]
      | int n => rfl
      | bool b => rfl
      | null => rfl

theorem column_args_fst_eq (col : Yaml) : (column_args col).1 = c1_args col := by
  unfold column_args c1_args
  simp only []
  rw [default_part_fst_eq]

theorem column_args_items_ne (col : Yaml) :
    ∀ a ∈ (column_args col).1, a.data ≠ [] := by
  intro a ha
  rcases mem_column_args ha with h | h | ⟨_, h⟩ | h | h | h | ⟨cv, _, h⟩
  · subst h; decide
  · subst h; decide
  · subst h; decide
  · subst h; decide
  · rcases default_part_fst_cases col with h2 | ⟨s, h2⟩ | ⟨v, h2⟩
    · rw [h2] at h
      exact absurd h (by simp)
    · rw [h2] at h
      rw [List.mem_singleton.mp h]
      exact append_data_ne_nil s (by decide)
    · rw [h2] at h
      rw [List.mem_singleton.mp h]
      exact append_data_ne_nil (normalize_yaml_value v) (by decide)
  · subst h; decide
  · subst h
    exact append_data_ne_nil (normalize_yaml_value cv) (by decide)

/-- C1: for every column the generator accepts, the emitted declaration line
is the four-space class-body indent followed by exactly the line the spec
prescribes: base token resolved from the six-entry type table, the
`String(length=...)` parameterization when the tag is `String` and `length`
is present, the argument list in the exact order primary_key, autoincrement,
nullable=False, unique, default, index, comment (each only if present/true,
with the server-side/client-side default branching), joined with `", "`, and
the `name = Column(<type>)` form when the list is empty. -/
theorem c1_column_line_follows_spec (tk n : String) (c : Yaml) (o : ColOut)
    (h : process_column tk n c = .ok o) :
    (c1_line n c).map (fun s => "    " ++ s) = some o.line := by
  unfold process_column at h
  split at h
  · next kvs =>
    split at h
    · next tv hty =>
      split at h
      · next s =>
        split at h
        · next tok hlk =>
          rw [Except.ok.injEq] at h
          subst h
          have htag : c1_tag (Yaml.map kvs) = some s := by
            unfold c1_tag
            rw [hty]
          have hbase : c1_base_token (Yaml.map kvs) = some tok := by
            unfold c1_base_token
            rw [htag]
            exact hlk
          have hty2 : c1_type_rendered (Yaml.map kvs)
              = some (column_type_str tok s (Yaml.map kvs)) := by
            unfold c1_type_rendered
            rw [hbase, Option.map_some']
            refine congrArg some ?_
            unfold column_type_str
            cases hlen : (Yaml.map kvs).get? "length" with
            | none => rfl
            | some lv =>
              simp only []
              rw [htag]
              by_cases hs : s = "String"
              · subst hs
                simp
              · rw [if_neg (by simp [beq_eq_false_iff_ne.mpr hs]),
                  if_neg (by simpa using hs)]
          unfold c1_line
          rw [hty2, Option.map_some', Option.map_some']
          refine congrArg some ?_
          rw [column_line_eq _ _ _ (column_args_items_ne _), column_args_fst_eq]
          by_cases he : c1_args (Yaml.map kvs) = []
          · rw [if_pos he, if_pos he]
            simp [String.append_assoc]
          · rw [if_neg he, if_neg he]
            simp [String.append_assoc]
        · exact absurd h (by simp)
      · exact absurd h (by simp)
      · exact absurd h (by simp)
    · exact absurd h (by simp)
  · exact absurd h (by simp)

/-- Witness for C1 at a concrete `Integer` column with a comment and
`nullable: true`. -/
theorem c1_witness :
    (c1_line "cat" colNullableEx).map (fun s => "    " ++ s) =
      some "    cat = Column(Integer, comment='free text')" :=
  c1_column_line_follows_spec "t" "cat" colNullableEx
    ⟨"    cat = Column(Integer, comment='free text')", "Integer", false⟩ rfl

/-! ## C8/C9/C10: error taxonomy and empty-columns rendering -/

theorem process_column_bad_tag {tk n : String} {kvs : List (String × Yaml)} {v : PyVal}
    (h1 : (Yaml.map kvs).get? "type" = some (.scalar v))
    (h2 : typeTagValid (.scalar v) = false) :
    process_column tk n (.map kvs) = .error ⟨"ValueError",
      "サポートされていないSQLAlchemyの型 '" ++ pyStrY (.scalar v)
        ++ "' がカラム '" ++ n ++ "' に指定されています。"⟩ := by
  unfold process_column
  rw [h1]
  cases v with
  | str s =>
    unfold typeTagValid at h2
    have h2' : (SQLA_TYPE_MAP.lookup s).isSome = false := by simpa using h2
    cases hlk : SQLA_TYPE_MAP.lookup s with
    | some tok =>
      rw [hlk] at h2'
      exact absurd h2' (by simp)
    | none =>
      simp only []
      rw [hlk]
  | int m => rfl
  | bool b => rfl
  | null => rfl

theorem process_column_dict_type {tk n : String} {kvs kvs2 : List (String × Yaml)}
    (h1 : (Yaml.map kvs).get? "type" = some (.map kvs2)) :
    process_column tk n (.map kvs) = .error ⟨"TypeError", "unhashable type: 'dict'"⟩ := by
  unfold process_column
  rw [h1]

/-- C9, amended: an out-of-set scalar `type` value makes the generator fail
with a fatal `ValueError` whose message names the offending column and the
bad type value — but not the table; a mapping-valued `type` instead crashes
at the dictionary-membership test with `TypeError: unhashable type: 'dict'`,
naming neither. -/
theorem c9_amended_unsupported_type :
    (∀ (tk n : String) (kvs : List (String × Yaml)) (v : PyVal),
      (Yaml.map kvs).get? "type" = some (.scalar v) →
      typeTagValid (.scalar v) = false →
      ∃ m, process_column tk n (.map kvs) = .error ⟨"ValueError", m⟩ ∧
        strHasRun (pyStrY (.scalar v)) m = true ∧ strHasRun n m = true) ∧
    (∀ (tk n : String) (kvs kvs2 : List (String × Yaml)),
      (Yaml.map kvs).get? "type" = some (.map kvs2) →
      process_column tk n (.map kvs) =
        .error ⟨"TypeError", "unhashable type: 'dict'"⟩) := by
  constructor
  · intro tk n kvs v h1 h2
    refine ⟨_, process_column_bad_tag h1 h2, ?_, ?_⟩
    · have := strHasRun_mid "サポートされていないSQLAlchemyの型 '" (pyStrY (.scalar v))
        ("' がカラム '" ++ n ++ "' に指定されています。")
      simpa [String.append_assoc] using this
    · have := strHasRun_mid
        ("サポートされていないSQLAlchemyの型 '" ++ pyStrY (.scalar v) ++ "' がカラム '") n
        "' に指定されています。"
      simpa [String.append_assoc] using this
  · intro tk n kvs kvs2 h1
    exact process_column_dict_type h1

/-- Witness for the amended C9 at a `type: JSON` column and at a
mapping-valued `type`. -/
theorem c9_witness :
    (∃ m, process_column "zzz_tbl" "c" (.map [("type", .scalar (.str "JSON"))]) =
      .error ⟨"ValueError", m⟩ ∧
      strHasRun (pyStrY (.scalar (.str "JSON"))) m = true ∧
      strHasRun "c" m = true) ∧
    process_column "zzz_tbl" "c" (.map [("type", .map [])]) =
      .error ⟨"TypeError", "unhashable type: 'dict'"⟩ :=
  ⟨c9_amended_unsupported_type.1 "zzz_tbl" "c" [("type", .scalar (.str "JSON"))]
    (.str "JSON") rfl rfl,
   c9_amended_unsupported_type.2 "zzz_tbl" "c" [("type", .map [])] [] rfl⟩

/-- C8, amended: the three failure kinds are all raised as the same
exception type, `ValueError` — they are distinguishable only by message
text. A missing source file and a parse failure (whose message carries the
parser's diagnostic) are `ValueError`s of the file-based entry point;
each of the claim's listed shape violations (missing or malformed `tables`,
malformed table definition, missing or malformed `columns`, missing `type`,
unrecognized scalar `type` tag) is a `ValueError` raised at the point of
detection, and on any failure the `Except` result carries no output text.
Outside the taxonomy, a mapping-valued `type` crashes the dictionary
membership test with `TypeError: unhashable type: 'dict'` (just as a truthy
non-string `description` crashes with `AttributeError`). -/
theorem c8_amended_error_taxonomy :
    (∀ p : String, generate_models_code_from_file p .fileMissing =
      .error ⟨"ValueError",
        "エラー: YAMLスキーマファイル '" ++ p ++ "' が見つかりません。"⟩) ∧
    (∀ p d : String, ∃ m, generate_models_code_from_file p (.parseFailed d) =
      .error ⟨"ValueError", m⟩ ∧ strHasRun d m = true) ∧
    (∀ doc : Yaml, rootTables? doc = Option.none →
      collect doc = .error ⟨"ValueError",
        "無効なYAMLスキーマ: 'tables' セクションが見つからないか、不正な形式です。"⟩) ∧
    (∀ (tk : String) (v : PyVal) (acc : GenAcc),
      process_table tk (.scalar v) acc = .error ⟨"ValueError",
        "テーブル '" ++ tk ++ "' の定義が不正な形式です。"⟩) ∧
    (∀ (tk : String) (kvs : List (String × Yaml)) (acc : GenAcc) (ds : List String),
      docstring_lines (.map kvs) = .ok ds →
      (∀ cs, (Yaml.map kvs).get? "columns" ≠ some (.map cs)) →
      process_table tk (.map kvs) acc = .error ⟨"ValueError",
        "テーブル '" ++ tk ++ "' には 'columns' セクションがないか、不正な形式です。"⟩) ∧
    (∀ (tk n : String) (kvs : List (String × Yaml)),
      (Yaml.map kvs).get? "type" = Option.none →
      process_column tk n (.map kvs) = .error ⟨"ValueError",
        "テーブル '" ++ tk ++ "' のカラム '" ++ n
          ++ "' は不正な形式か、'type' がありません。"⟩) ∧
    (∀ (tk n : String) (kvs : List (String × Yaml)) (v : PyVal),
      (Yaml.map kvs).get? "type" = some (.scalar v) →
      typeTagValid (.scalar v) = false →
      ∃ m, process_column tk n (.map kvs) = .error ⟨"ValueError", m⟩) ∧
    (∀ (tk n : String) (kvs kvs2 : List (String × Yaml)),
      (Yaml.map kvs).get? "type" = some (.map kvs2) →
      process_column tk n (.map kvs) =
        .error ⟨"TypeError", "unhashable type: 'dict'"⟩) := by
  refine ⟨fun p => rfl, ?_, ?_, fun tk v acc => rfl, ?_, ?_, ?_, ?_⟩
  · intro p d
    refine ⟨_, rfl, ?_⟩
    have := strHasRun_mid
      ("エラー: YAMLスキーマファイル '" ++ p ++ "' の解析に失敗しました: ") d ""
    simpa [String.append_assoc] using this
  · intro doc h
    cases doc with
    | scalar v => rfl
    | map kvs =>
      unfold rootTables? at h
      unfold collect
      cases hg : (Yaml.map kvs).get? "tables" with
      | none => rfl
      | some v =>
        cases v with
        | map ts =>
          rw [hg] at h
          simp at h
        | scalar w => rfl
  · intro tk kvs acc ds hds hno
    unfold process_table
    rw [hds]
    cases hc : (Yaml.map kvs).get? "columns" with
    | none => rfl
    | some v =>
      cases v with
      | map cs => exact absurd hc (hno cs)
      | scalar w => rfl
  · intro tk n kvs h
    unfold process_column
    rw [h]
  · intro tk n kvs v h1 h2
    exact ⟨_, process_column_bad_tag h1 h2⟩
  · intro tk n kvs kvs2 h1
    exact process_column_dict_type h1

/-- Witness for the amended C8: concrete failures of each of the three
kinds, all carrying exception type `ValueError`. -/
theorem c8_witness :
    generate_models_code_from_file "s.yml" .fileMissing =
      .error ⟨"ValueError", "エラー: YAMLスキーマファイル 's.yml' が見つかりません。"⟩ ∧
    (∃ m, generate_models_code_from_file "s.yml" (.parseFailed "bad token") =
      .error ⟨"ValueError", m⟩ ∧ strHasRun "bad token" m = true) ∧
    collect (.scalar .null) = .error ⟨"ValueError",
      "無効なYAMLスキーマ: 'tables' セクションが見つからないか、不正な形式です。"⟩ :=
  ⟨c8_amended_error_taxonomy.1 "s.yml",
   c8_amended_error_taxonomy.2.1 "s.yml" "bad token",
   c8_amended_error_taxonomy.2.2.1 (.scalar .null) rfl⟩

/-- C10, amended: a table whose `columns` mapping is present and empty
renders successfully to the class header, the optional docstring block, the
table-name binding and two blank lines (the separator after the binding and
the trailing table-separator blank), with zero column declaration lines, and
it contributes no used type and no `func` flag. -/
theorem c10_amended_empty_columns (tk : String) (kvs : List (String × Yaml))
    (acc : GenAcc) (ds : List String)
    (hds : docstring_lines (.map kvs) = .ok ds)
    (hcols : (Yaml.map kvs).get? "columns" = some (.map [])) :
    process_table tk (.map kvs) acc = .ok ⟨acc.usedTypes, acc.needsFunc,
      acc.lines ++ ["class " ++ resolved_class_name tk (.map kvs) ++ "(Base):"] ++ ds
        ++ ["    __tablename__ = '" ++ resolved_table_name tk (.map kvs) ++ "'", "", ""]⟩ := by
  unfold process_table
  rw [hds, hcols]
  simp [col_results, addTokens, List.append_assoc]

/-- Witness for the amended C10 at a concrete empty-columns table. -/
theorem c10_witness :
    process_table "t" (.map [("columns", .map [])]) ⟨[], false, []⟩ = .ok
      ⟨[], false,
        [] ++ ["class " ++ resolved_class_name "t" (.map [("columns", .map [])]) ++ "(Base):"]
          ++ []
          ++ ["    __tablename__ = '"
                ++ resolved_table_name "t" (.map [("columns", .map [])]) ++ "'", "", ""]⟩ :=
  c10_amended_empty_columns "t" [("columns", .map [])] ⟨[], false, []⟩ [] rfl rfl

end OrmStudy
